import Mathlib

/-!
Verification of the vector store and hybrid retrieval engine of the
RAG-Chatbot repository: a shallow embedding of
`offline/backend/services/faiss_store.py` (class `FAISSCollection`) and
`offline/backend/services/embeddings.py` (`chunk_and_store`,
`retrieve_context`, `keyword_search`), with theorems settling the frozen
claims about them.

Conventions of the embedding:
* embedding vectors are lists of integers (`Vec`); the spec's float vectors
  are abstracted to an exact ordered numeric type, which preserves every
  ordering/ranking property at stake;
* a metadata dict is an association list of string keys and values;
* a raised Python exception is `Except.error ()`;
* the two persisted files (the faiss index file and the metadata pickle)
  are `Option`-valued fields of the collection state, `none` meaning the
  file is missing or unreadable; whether a physical disk write succeeds is
  an explicit boolean argument (`idxOk`, `metaOk`) threaded to `_persist`;
* the external sentence-transformer model is a function argument
  `encode : List String → Except Unit (List Vec)` (it may fail);
* the external langchain text splitter of `get_text_splitter` is a function
  argument `splitter : String → List String`, and `uuid.uuid4` generation
  is a function argument `uuid : Nat → String`;
* Python's stable `list.sort` is modelled by `List.insertionSort`, which
  produces the same list: for a total preorder the stable sorted
  permutation is unique, and both sorts are stable;
* Python string primitives (`lower`, `strip`, `split`, `in`) are modelled
  by executable char-list functions (`pyLower`, `pyStrip`, `pyLines`,
  `pySplit`, `containsSub`).
-/

namespace RAGChatbot

/-- An embedding vector (a row of the faiss index). -/
abbrev Vec := List Int

/-- A metadata dict: string keys to string values, e.g. `{"source": s}`. -/
abbrev Metadata := List (String × String)

/-- Python `dict.get k`: the first binding of `k`, if any. -/
def metaGet (m : Metadata) (k : String) : Option String :=
  (m.find? (fun kv => kv.1 == k)).map (fun kv => kv.2)

/-- Python truthiness of an optional string: `None` and `""` are falsy. -/
def strTruthy : Option String → Bool
  | none => false
  | some s => s != ""

/-- Python `str.lower()` (ASCII case mapping). -/
def pyLower (s : String) : String := ⟨s.data.map Char.toLower⟩

/-- Python `str.strip()`: drop leading and trailing whitespace. -/
def pyStrip (s : String) : String :=
  ⟨((s.data.dropWhile Char.isWhitespace).reverse.dropWhile
      Char.isWhitespace).reverse⟩

/-- Python `str.split('\n')`. -/
def pyLines (s : String) : List String :=
  (s.data.splitOnP (fun c => c == '\n')).map (fun l => ⟨l⟩)

/-- Python `str.split()` with no argument: split on whitespace runs,
discarding empty pieces. -/
def pySplit (s : String) : List String :=
  ((s.data.splitOnP Char.isWhitespace).filter (fun w => !w.isEmpty)).map
    (fun l => ⟨l⟩)

/-- Python `pat in s` on strings: substring containment. -/
def containsSub (s pat : String) : Bool :=
  (List.range (s.data.length + 1)).any
    (fun i => List.isPrefixOf pat.data (s.data.drop i))

/-- Squared Euclidean distance, the metric of `faiss.IndexFlatL2`. -/
def sqDist (q v : Vec) : Int :=
  ((q.zip v).map (fun p => (p.1 - p.2) * (p.1 - p.2))).sum

/-- Modelled from the spec: `faiss.IndexFlatL2.search` — the faiss library
is external, not part of the repository's sources. Spec §4.1: the search
"returns up to `k` (row-index, distance) pairs sorted by ascending distance
(closest first); if the index has fewer than `k` rows, returns all rows
ranked". Exact scan; ties keep row order (stable ranking). -/
def indexSearch (rows : List Vec) (q : Vec) (k : Nat) : List (Nat × Int) :=
  (((rows.enum).map (fun p => (p.1, sqDist q p.2))).insertionSort
    (fun a b => a.2 ≤ b.2)).take k

/-- State of `FAISSCollection` (faiss_store.py): the in-memory parallel
lists and index, plus the two persisted files. `diskMeta` holds the pickled
dict in its `{'documents', 'metadatas', 'ids'}` order. -/
structure FAISSCollection where
  dimension : Nat
  ids : List String
  documents : List String
  metadatas : List Metadata
  index : List Vec
  diskIndex : Option (List Vec)
  diskMeta : Option (List String × List Metadata × List String)
  deriving DecidableEq, Repr

/-- `FAISSCollection._create_new_index`: fresh empty index and lists; the
on-disk files are not touched. -/
def _create_new_index (diskIndex : Option (List Vec))
    (diskMeta : Option (List String × List Metadata × List String)) :
    FAISSCollection :=
  { dimension := 384, ids := [], documents := [], metadatas := [], index := [],
    diskIndex := diskIndex, diskMeta := diskMeta }

/-- `FAISSCollection.__init__` / `_load_or_create`: if both files exist and
deserialize, load them; otherwise (missing or corrupt, modelled as `none`)
create a fresh empty index. -/
def _load_or_create (diskIndex : Option (List Vec))
    (diskMeta : Option (List String × List Metadata × List String)) :
    FAISSCollection :=
  match diskIndex, diskMeta with
  | some rows, some m =>
    { dimension := 384, documents := m.1, metadatas := m.2.1, ids := m.2.2,
      index := rows, diskIndex := some rows, diskMeta := some m }
  | di, dm => _create_new_index di dm

/-- `FAISSCollection._persist`: write the index file, then the metadata
file. The Python body wraps both writes in one `try` whose handler only
prints a warning, so a failure is never signalled to the caller, and a
failed index write also skips the metadata write. -/
def FAISSCollection._persist (c : FAISSCollection) (idxOk metaOk : Bool) :
    FAISSCollection :=
  if idxOk then
    let c1 := { c with diskIndex := some c.index }
    if metaOk then
      { c1 with diskMeta := some (c.documents, c.metadatas, c.ids) }
    else c1
  else c

/-- `FAISSCollection.add`. Embeds the batch via the collaborator `encode`,
appends the vectors to the index (the faiss add asserts the fixed dimension,
spec §4.1 `DimensionMismatch`), extends the three parallel lists, then
persists. A falsy `metadatas` argument (Python `None` or `[]`) is replaced
by one empty dict per document. `.error` is a raised exception. -/
def FAISSCollection.add (c : FAISSCollection)
    (encode : List String → Except Unit (List Vec)) (idxOk metaOk : Bool)
    (ids : List String) (documents : List String)
    (metadatas : Option (List Metadata)) : Except Unit FAISSCollection :=
  if documents = [] then .ok c
  else
    match encode documents with
    | .error e => .error e
    | .ok embeddings =>
      if embeddings.all (fun v => v.length == c.dimension) then
        .ok (FAISSCollection._persist
          { c with
            index := c.index ++ embeddings,
            ids := c.ids ++ ids,
            documents := c.documents ++ documents,
            metadatas := c.metadatas ++
              (match metadatas with
               | some ms =>
                 if ms = [] then documents.map (fun _ => ([] : Metadata))
                 else ms
               | none => documents.map (fun _ => ([] : Metadata))) }
          idxOk metaOk)
      else .error ()

/-- The result dict of `FAISSCollection.get`. -/
structure GetResult where
  ids : List String
  documents : List String
  metadatas : List Metadata
  deriving DecidableEq, Repr

/-- Python `all(meta.get(k) == v for k, v in where.items())`. -/
def metaMatch (m : Metadata) (filt : Metadata) : Bool :=
  filt.all (fun kv => metaGet m kv.1 == some kv.2)

/-- `FAISSCollection.get`: a falsy filter (`None` or `{}`) returns every
entry; otherwise the entries whose metadata agrees with every filter key. -/
def FAISSCollection.get (c : FAISSCollection) (whereFilt : Option Metadata) :
    GetResult :=
  match whereFilt with
  | none => ⟨c.ids, c.documents, c.metadatas⟩
  | some filt =>
    if filt = [] then ⟨c.ids, c.documents, c.metadatas⟩
    else
      let matching := (c.metadatas.enum).filter (fun p => metaMatch p.2 filt)
      ⟨matching.map (fun p => c.ids.getD p.1 ""),
       matching.map (fun p => c.documents.getD p.1 ""),
       matching.map (fun p => p.2)⟩

/-- The result dict of `FAISSCollection.query`. -/
structure QueryResult where
  documents : List (List String)
  distances : List (List Int)
  metadatas : List (List Metadata)
  deriving DecidableEq, Repr

/-- `FAISSCollection.query`: on an empty query list or empty collection an
empty result structure; otherwise encode the query texts, search the index
for `k = min n_results (len documents)` neighbours per query row, and gather
the documents and metadatas at the returned row indices (an index out of
range is skipped, Python `if i < len(...)`). -/
def FAISSCollection.query (c : FAISSCollection)
    (encode : List String → Except Unit (List Vec))
    (query_texts : List String) (n_results : Nat) : Except Unit QueryResult :=
  if query_texts = [] ∨ c.documents = [] then
    .ok ⟨[[]], [[]], [[]]⟩
  else
    match encode query_texts with
    | .error e => .error e
    | .ok query_embedding =>
      let k := min n_results c.documents.length
      let searches := query_embedding.map (fun qv => indexSearch c.index qv k)
      .ok ⟨searches.map (fun rs =>
             (rs.filter (fun p => decide (p.1 < c.documents.length))).map
               (fun p => c.documents.getD p.1 "")),
           searches.map (fun rs => rs.map (fun p => p.2)),
           searches.map (fun rs =>
             (rs.filter (fun p => decide (p.1 < c.metadatas.length))).map
               (fun p => c.metadatas.getD p.1 []))⟩

/-- `FAISSCollection.count`: the number of stored documents. -/
def FAISSCollection.count (c : FAISSCollection) : Nat := c.documents.length

/-- The per-line score of `keyword_search`: how many whitespace-separated
tokens of the lowercased query occur as substrings of the lowercased line
(`sum(1 for word in query_lower.split() if word in line.lower())`). -/
def line_score (query_lower line : String) : Nat :=
  (pySplit query_lower).countP (fun word => containsSub (pyLower line) word)

/-- The `scored_lines` list of `keyword_search`: the non-blank lines of the
fallback text with a positive score, paired with their score, in encounter
order. -/
def scored_lines (full_text query : String) : List (Nat × String) :=
  (pyLines full_text).filterMap (fun line =>
    if 0 < (pyStrip line).length then
      let score := line_score (pyLower query) line
      if 0 < score then some (score, line) else none
    else none)

/-- The `matched` list of `keyword_search`: the lines of the top `top_k`
scored pairs after the stable sort by score descending (Python
`list.sort(key=..., reverse=True)` is stable; `List.insertionSort` with the
reversed comparison keeps ties in encounter order likewise). -/
def keyword_matched (full_text query : String) (top_k : Nat) : List String :=
  (((scored_lines full_text query).insertionSort
      (fun a b => b.1 ≤ a.1)).take top_k).map (fun p => p.2)

/-- `keyword_search` (embeddings.py): the newline-join of the matched lines,
or `""` when no line scores positively. (The Python body also catches any
exception and returns `""`; no operation of the body can fail here.) -/
def keyword_search (full_text query : String) (top_k : Nat) : String :=
  if scored_lines full_text query ≠ [] then
    String.intercalate "\n" (keyword_matched full_text query top_k)
  else ""

/-- `retrieve_context` (embeddings.py). The whole body runs inside one
`try` returning `("", "error")` on any exception; the failure points are
the collection query (a raised encode failure) and the `[0]` subscript on
an empty documents list. -/
def retrieve_context (encode : List String → Except Unit (List Vec))
    (query : String) (c : FAISSCollection) (n_results : Nat)
    (fallback_text : Option String) : String × String :=
  let count := c.count
  if count = 0 then ("", "none")
  else
    match c.query encode [query] (min (n_results * 2) count) with
    | .error _ => ("", "error")
    | .ok results =>
      match results.documents with
      | [] => ("", "error")
      | documents :: _ =>
        if documents ≠ [] then
          (String.intercalate "\n\n" (documents.take n_results), "semantic")
        else if strTruthy fallback_text then
          let keyword_context :=
            keyword_search (fallback_text.getD "") query n_results
          if keyword_context ≠ "" then (keyword_context, "keyword")
          else ("", "none")
        else ("", "none")

/-- `chunk_and_store` (embeddings.py): if the source is truthy and entries
with that source already exist, a no-op returning `(0, True)`; otherwise
split the text, generate one uuid per chunk, tag every chunk's metadata
with the source when truthy, add, and return `(len(chunks), False)`.
The result pairs `(chunks_created, already_exists)` with the new collection
state. -/
def chunk_and_store (splitter : String → List String) (uuid : Nat → String)
    (encode : List String → Except Unit (List Vec)) (idxOk metaOk : Bool)
    (text : String) (c : FAISSCollection) (source : Option String) :
    Except Unit ((Nat × Bool) × FAISSCollection) :=
  let store : Except Unit ((Nat × Bool) × FAISSCollection) :=
    let chunks := splitter text
    let ids := (List.range chunks.length).map uuid
    let metadatas := chunks.map (fun _ =>
      if strTruthy source then [("source", source.getD "")]
      else ([] : Metadata))
    match c.add encode idxOk metaOk ids chunks (some metadatas) with
    | .error e => .error e
    | .ok c1 => .ok ((chunks.length, false), c1)
  if strTruthy source then
    let existing := c.get (some [("source", source.getD "")])
    if 0 < existing.ids.length then .ok ((0, true), c)
    else store
  else store

/-- Invariant I1 of the spec: the three parallel lists and the index agree
in length after any completed operation. -/
def I1 (c : FAISSCollection) : Prop :=
  c.ids.length = c.documents.length ∧
  c.documents.length = c.metadatas.length ∧
  c.metadatas.length = c.index.length

instance (c : FAISSCollection) : Decidable (I1 c) := by
  unfold I1
  infer_instance

deriving instance DecidableEq for Except

set_option maxRecDepth 100000

/-! ### Concrete instances of the external collaborators, for evaluation -/

/-- A well-behaved embedding model: one 384-dimensional vector per text. -/
def exEncode : List String → Except Unit (List Vec) :=
  fun ts => .ok (ts.map (fun _ => List.replicate 384 (0 : Int)))

/-- A text splitter producing a single chunk. -/
def exSplit : String → List String := fun t => [t]

/-- Sequential ids standing in for `uuid.uuid4()`. -/
def exUuid : Nat → String := fun n => toString n

/-- A freshly created collection (no persisted files). -/
def c0 : FAISSCollection := _load_or_create none none

/-- The collection state after one `chunk_and_store` of `"hello"` into `c0`
with the given source. -/
def afterFirst (source : Option String) : FAISSCollection :=
  match chunk_and_store exSplit exUuid exEncode true true "hello" c0 source with
  | .ok r => r.2
  | .error _ => c0

/-- State after storing `"hello"` under source `"s1"`. -/
def cS1 : FAISSCollection := afterFirst (some "s1")

/-- State after storing `"hello"` under the falsy source `""`. -/
def cEmptySource : FAISSCollection := afterFirst (some "")

/-- A consistent one-document collection. -/
def c1doc : FAISSCollection :=
  { dimension := 384, ids := ["i"], documents := ["d"], metadatas := [[]],
    index := [List.replicate 384 (0 : Int)], diskIndex := none,
    diskMeta := none }

/-- The fallback text of the spec's keyword scenario. -/
def exFallback : String := "apples are red\nbananas are yellow\ncars are fast"

/-- The one-document query result returned for `c1doc` (distance 0). -/
def qrWit : QueryResult := ⟨[["d"]], [[0]], [[[]]]⟩

/-- The state after a successful `add` of one document into `c0`. -/
def cAddWit : FAISSCollection :=
  match c0.add exEncode true true ["i"] ["d"] none with
  | .ok c => c
  | .error _ => c0

/-- The state produced by an `add` of one document during which both disk
writes fail. -/
def cWriteFail : FAISSCollection :=
  match (_load_or_create none none).add exEncode false false ["i"] ["d"]
      none with
  | .ok c => c
  | .error _ => _load_or_create none none

/-! ### Helper lemmas -/

theorem _persist_ids (c : FAISSCollection) (i m : Bool) :
    (c._persist i m).ids = c.ids := by
  unfold FAISSCollection._persist
  cases i <;> cases m <;> simp

theorem _persist_documents (c : FAISSCollection) (i m : Bool) :
    (c._persist i m).documents = c.documents := by
  unfold FAISSCollection._persist
  cases i <;> cases m <;> simp

theorem _persist_metadatas (c : FAISSCollection) (i m : Bool) :
    (c._persist i m).metadatas = c.metadatas := by
  unfold FAISSCollection._persist
  cases i <;> cases m <;> simp

theorem _persist_index (c : FAISSCollection) (i m : Bool) :
    (c._persist i m).index = c.index := by
  unfold FAISSCollection._persist
  cases i <;> cases m <;> simp

theorem strTruthy_some {s : String} (hs : s ≠ "") :
    strTruthy (some s) = true := by
  simp [strTruthy, hs]

theorem add_nil (c : FAISSCollection)
    (encode : List String → Except Unit (List Vec)) (idxOk metaOk : Bool)
    (ids : List String) (metadatas : Option (List Metadata)) :
    c.add encode idxOk metaOk ids [] metadatas = .ok c := by
  simp [FAISSCollection.add]

theorem add_metadatas_append (c c' : FAISSCollection)
    (encode : List String → Except Unit (List Vec)) (idxOk metaOk : Bool)
    (ids documents : List String) (ms : List Metadata)
    (hdocs : documents ≠ []) (hms : ms ≠ [])
    (h : c.add encode idxOk metaOk ids documents (some ms) = .ok c') :
    c'.metadatas = c.metadatas ++ ms := by
  unfold FAISSCollection.add at h
  rw [if_neg hdocs] at h
  split at h
  · exact absurd h (by simp)
  · split at h
    · obtain rfl := (Except.ok.inj h)
      rw [_persist_metadatas]
      simp [hms]
    · exact absurd h (by simp)

theorem metaMatch_source_self (s : String) :
    metaMatch [("source", s)] [("source", s)] = true := by
  simp [metaMatch, metaGet]

theorem get_pos_of_mem {c : FAISSCollection} {filt : Metadata} (hf : filt ≠ [])
    {m : Metadata} (hm : m ∈ c.metadatas) (hmatch : metaMatch m filt = true) :
    0 < (c.get (some filt)).ids.length := by
  show 0 < (if filt = [] then (⟨c.ids, c.documents, c.metadatas⟩ : GetResult)
    else _).ids.length
  rw [if_neg hf]
  simp only [List.length_map]
  rw [List.length_pos]
  have hm' : m ∈ c.metadatas.enum.map Prod.snd := by
    rw [List.enum_map_snd]; exact hm
  obtain ⟨p, hp, hpm⟩ := List.mem_map.mp hm'
  exact List.ne_nil_of_mem (List.mem_filter.mpr ⟨hp, by rw [hpm]; exact hmatch⟩)

theorem query_encode_error (c : FAISSCollection)
    (encode : List String → Except Unit (List Vec))
    (query_texts : List String) (n : Nat)
    (hqt : query_texts ≠ []) (hdocs : c.documents ≠ [])
    (herr : encode query_texts = .error ()) :
    c.query encode query_texts n = .error () := by
  unfold FAISSCollection.query
  rw [if_neg (by simp [hqt, hdocs]), herr]

theorem query_encode_empty (c : FAISSCollection)
    (encode : List String → Except Unit (List Vec))
    (query_texts : List String) (n : Nat)
    (hqt : query_texts ≠ []) (hdocs : c.documents ≠ [])
    (hok : encode query_texts = .ok []) :
    c.query encode query_texts n = .ok ⟨[], [], []⟩ := by
  unfold FAISSCollection.query
  rw [if_neg (by simp [hqt, hdocs]), hok]
  simp

theorem indexSearch_length (rows : List Vec) (qv : Vec) (k : Nat) :
    (indexSearch rows qv k).length = min k rows.length := by
  simp [indexSearch, List.length_take, List.length_insertionSort,
    List.enum_length]

theorem indexSearch_sorted (rows : List Vec) (qv : Vec) (k : Nat) :
    List.Sorted (fun a b : Nat × Int => a.2 ≤ b.2) (indexSearch rows qv k) := by
  haveI : IsTotal (Nat × Int) (fun a b => a.2 ≤ b.2) :=
    ⟨fun a b => le_total a.2 b.2⟩
  haveI : IsTrans (Nat × Int) (fun a b => a.2 ≤ b.2) :=
    ⟨fun a b c hab hbc => le_trans hab hbc⟩
  exact List.Pairwise.sublist (List.take_sublist _ _)
    (List.sorted_insertionSort _ _)

theorem indexSearch_all_rows (rows : List Vec) (qv : Vec) (k : Nat)
    (h : rows.length ≤ k) :
    List.Perm ((indexSearch rows qv k).map Prod.fst)
      (List.range rows.length) := by
  unfold indexSearch
  rw [List.take_of_length_le
    (by simpa [List.length_insertionSort, List.enum_length] using h)]
  refine ((List.perm_insertionSort _ _).map Prod.fst).trans ?_
  rw [List.map_map]
  exact (List.enum_map_fst rows) ▸ List.Perm.refl _

/-! ### C10 -/

/-- C10: calling `add` with an empty documents list is a complete no-op:
it returns normally (no exception), and the returned state — index, the
three parallel lists, and both persisted files — is exactly the input
state, whatever `ids` and `metadatas` are. -/
theorem C10_add_empty_documents_noop (c : FAISSCollection)
    (encode : List String → Except Unit (List Vec)) (idxOk metaOk : Bool)
    (ids : List String) (metadatas : Option (List Metadata)) :
    c.add encode idxOk metaOk ids [] metadatas = .ok c := by
  simp [FAISSCollection.add]

/-! ### C2 -/

/-- C2 (code bug): a failed disk write during `add` is NOT surfaced to the
caller. Evaluated at the failing input (`add` of one document while both
file writes fail, e.g. an unwritable persist directory): the call returns
normally (`.ok`, no exception) with the document added in memory and both
on-disk files unchanged, because `_persist` catches every exception
internally and only logs it — the re-raising handler around
`self._persist()` inside `add` is unreachable. The claim (and spec §7)
says the add call must fail. -/
theorem C2_write_failure_swallowed :
    (_load_or_create none none).add exEncode false false ["i"] ["d"] none =
      .ok cWriteFail ∧
    cWriteFail.count = 1 ∧ cWriteFail.diskIndex = none ∧
    cWriteFail.diskMeta = none := by
  refine ⟨by decide, by decide, by decide, by decide⟩

/-! ### C1 -/

/-- Counterexample to C1 as stated: for the falsy source `""` the
duplicate check of `chunk_and_store` is skipped entirely (`if source:`),
so the second call with the same text and source re-stores the chunk: it
returns `(1, false)` — not `(0, true)` — and `count()` grows from 1 to 2. -/
theorem C1_counterexample :
    cEmptySource.count = 1 ∧
    (chunk_and_store exSplit exUuid exEncode true true "hello" cEmptySource
        (some "")).map (fun p => (p.1, p.2.count)) = .ok ((1, false), 2) :=
  ⟨by decide, by decide⟩

/-- Claim C1, amended: for every truthy (non-`None`, non-empty) source `s`
and every text whose split yields at least one chunk, once a
`chunk_and_store` of that text under `s` has completed, calling it again
with the same source returns `(0, true)` and leaves the collection state —
hence `count()` — unchanged. -/
theorem C1_redundant_add_noop (splitter : String → List String)
    (uuid : Nat → String) (encode : List String → Except Unit (List Vec))
    (idxOk metaOk : Bool) (text : String) (c c1 : FAISSCollection)
    (s : String) (r : Nat × Bool)
    (hs : s ≠ "") (hchunks : splitter text ≠ [])
    (h1 : chunk_and_store splitter uuid encode idxOk metaOk text c (some s) =
      .ok (r, c1)) :
    chunk_and_store splitter uuid encode idxOk metaOk text c1 (some s) =
      .ok ((0, true), c1) := by
  have ht := strTruthy_some hs
  simp only [chunk_and_store, ht, Option.getD_some, if_true] at h1 ⊢
  by_cases hex : 0 < (c.get (some [("source", s)])).ids.length
  · rw [if_pos hex] at h1
    have hpair := Except.ok.inj h1
    obtain rfl : c = c1 := congrArg Prod.snd hpair
    rw [if_pos hex]
  · rw [if_neg hex] at h1
    cases hadd : c.add encode idxOk metaOk
        ((List.range (splitter text).length).map uuid) (splitter text)
        (some ((splitter text).map (fun _ => [("source", s)]))) with
    | error e =>
      rw [hadd] at h1
      exact absurd h1 (by simp)
    | ok c' =>
      rw [hadd] at h1
      obtain rfl : c' = c1 := congrArg Prod.snd (Except.ok.inj h1)
      have hmeta := add_metadatas_append c c' encode idxOk metaOk _ _ _
        hchunks (by simpa using hchunks) hadd
      have hmem : [("source", s)] ∈ c'.metadatas := by
        rw [hmeta]
        refine List.mem_append_right _ ?_
        obtain ⟨ch, hch⟩ := List.exists_mem_of_ne_nil _ hchunks
        exact List.mem_map.mpr ⟨ch, hch, rfl⟩
      have hpos := get_pos_of_mem (by simp) hmem (metaMatch_source_self s)
      rw [if_pos hpos]

/-- Witness for C1: after storing `"hello"` under the source `"s1"` into a
fresh collection, a second identical call returns `(0, true)` with the
state unchanged. -/
theorem C1_redundant_add_noop_witness :
    chunk_and_store exSplit exUuid exEncode true true "hello" cS1
      (some "s1") = .ok ((0, true), cS1) :=
  C1_redundant_add_noop exSplit exUuid exEncode true true "hello" c0 cS1
    "s1" (1, false) (by decide) (by decide) (by decide)

/-! ### C3 -/

/-- Claim C3: invariant I1 (`len(ids) == len(documents) == len(metadatas)
== index.size()`) holds after construction and is preserved by every
completed `add` whose arguments satisfy the length precondition, given the
embedding collaborator's one-vector-per-text contract. `get`, `query` and
`count` do not modify the state (they are pure functions of it), so I1 is
trivially preserved by them. Conjuncts: fresh construction; construction
reloading a fully persisted I1 state; preservation by `add`. -/
theorem C3_invariant_I1 :
    (∀ di dm, I1 (_create_new_index di dm)) ∧
    (∀ c : FAISSCollection, I1 c →
      I1 (_load_or_create (c._persist true true).diskIndex
        (c._persist true true).diskMeta)) ∧
    (∀ (c c' : FAISSCollection)
      (encode : List String → Except Unit (List Vec)) (idxOk metaOk : Bool)
      (ids documents : List String) (metadatas : Option (List Metadata)),
      I1 c → ids.length = documents.length →
      (∀ ms, metadatas = some ms → ms ≠ [] → ms.length = documents.length) →
      (∀ vs, encode documents = .ok vs → vs.length = documents.length) →
      c.add encode idxOk metaOk ids documents metadatas = .ok c' → I1 c') := by
  refine ⟨fun di dm => by simp [I1, _create_new_index], fun c hc => ?_, ?_⟩
  · simpa [I1, _load_or_create, FAISSCollection._persist] using hc
  · intro c c' encode idxOk metaOk ids documents metadatas hI hlen hm henc hadd
    by_cases hdocs : documents = []
    · subst hdocs
      rw [add_nil] at hadd
      obtain rfl := Except.ok.inj hadd
      exact hI
    · obtain ⟨h1, h2, h3⟩ := hI
      unfold FAISSCollection.add at hadd
      rw [if_neg hdocs] at hadd
      split at hadd
      · exact absurd hadd (by simp)
      · rename_i embeddings heq
        split at hadd
        · obtain rfl := Except.ok.inj hadd
          have hemb := henc embeddings heq
          cases metadatas with
          | none =>
            refine ⟨?_, ?_, ?_⟩ <;>
              simp only [_persist_ids, _persist_documents, _persist_metadatas,
                _persist_index, List.length_append, List.length_map] <;>
              omega
          | some ms =>
            by_cases hms : ms = []
            · subst hms
              refine ⟨?_, ?_, ?_⟩ <;>
                simp only [_persist_ids, _persist_documents,
                  _persist_metadatas, _persist_index, List.length_append,
                  List.length_map, eq_self_iff_true, if_true] <;>
                omega
            · have hmlen := hm ms rfl hms
              refine ⟨?_, ?_, ?_⟩ <;>
                simp only [_persist_ids, _persist_documents,
                  _persist_metadatas, _persist_index, List.length_append,
                  List.length_map, if_neg hms] <;>
                omega
        · exact absurd hadd (by simp)

/-- Witness for C3: I1 evaluated on a fresh collection, on a reload of the
persisted one-document collection, and on the state after a concrete
successful `add`. -/
theorem C3_invariant_I1_witness :
    I1 (_create_new_index none none) ∧
    I1 (_load_or_create (c1doc._persist true true).diskIndex
      (c1doc._persist true true).diskMeta) ∧
    I1 cAddWit :=
  ⟨C3_invariant_I1.1 none none,
   C3_invariant_I1.2.1 c1doc (by decide),
   C3_invariant_I1.2.2 c0 cAddWit exEncode true true ["i"] ["d"] none
     (by decide) rfl (fun ms h => absurd h (by simp))
     (fun vs h => by injection h with h2; subst h2; rfl)
     (by decide)⟩

/-! ### C4 -/

/-- Claim C4: for a non-empty collection, `retrieve_context` runs the
semantic search for `min(n_results * 2, count())` candidates, and whenever
that query completes with a non-empty first documents row, the result is
exactly the top `n_results` returned documents, in rank order, joined with
the blank-line separator `"\n\n"`, with method `"semantic"` — whatever the
fallback text is. -/
theorem C4_semantic_top_n (encode : List String → Except Unit (List Vec))
    (q : String) (c : FAISSCollection) (n : Nat) (ft : Option String)
    (qr : QueryResult) (docs : List String) (rest : List (List String))
    (hcnt : c.count ≠ 0)
    (hq : c.query encode [q] (min (n * 2) c.count) = .ok qr)
    (hdocs : qr.documents = docs :: rest) (hne : docs ≠ []) :
    retrieve_context encode q c n ft =
      (String.intercalate "\n\n" (docs.take n), "semantic") := by
  simp only [retrieve_context, hq, hdocs]
  rw [if_neg hcnt, if_pos hne]

/-- Witness for C4: the one-document collection returns its document with
method `"semantic"`. -/
theorem C4_semantic_top_n_witness :
    retrieve_context exEncode "q" c1doc 5 none =
      (String.intercalate "\n\n" (["d"].take 5), "semantic") :=
  C4_semantic_top_n exEncode "q" c1doc 5 none qrWit ["d"] []
    (by decide) (by decide) rfl (by decide)

/-! ### C5 -/

/-- Claim C5: `keyword_search` keeps exactly the non-blank lines whose
score — the number of lowercased whitespace-separated query tokens that
occur as substrings of the lowercased line — is positive, and ranks the
survivors by score descending with a stable sort (ties keep encounter
order; the sublist conjunct is the stability property: any
score-descending sublist of the survivors, in particular any run of tied
lines in encounter order, survives the sort in that order). The final
conjunct checks the spec's concrete scenario, whose two tied lines
(score 1 each) come back in original order with the zero-score line
dropped. -/
theorem C5_keyword_scoring :
    (∀ ft q (p : Nat × String), p ∈ scored_lines ft q →
      0 < p.1 ∧ 0 < (pyStrip p.2).length ∧
        p.1 = line_score (pyLower q) p.2) ∧
    (∀ ft q, List.Sorted (fun a b : Nat × String => b.1 ≤ a.1)
      ((scored_lines ft q).insertionSort (fun a b => b.1 ≤ a.1))) ∧
    (∀ ft q, List.Perm
      ((scored_lines ft q).insertionSort (fun a b => b.1 ≤ a.1))
      (scored_lines ft q)) ∧
    (∀ ft q (l : List (Nat × String)),
      List.Sublist l (scored_lines ft q) →
      l.Pairwise (fun a b => b.1 ≤ a.1) →
      List.Sublist l
        ((scored_lines ft q).insertionSort (fun a b => b.1 ≤ a.1))) ∧
    keyword_search exFallback "apples yellow" 2 =
      "apples are red\nbananas are yellow" := by
  haveI : IsTotal (Nat × String) (fun a b => b.1 ≤ a.1) :=
    ⟨fun a b => le_total b.1 a.1⟩
  haveI : IsTrans (Nat × String) (fun a b => b.1 ≤ a.1) :=
    ⟨fun a b c hab hbc => le_trans hbc hab⟩
  refine ⟨?_, ?_, ?_, ?_, by decide⟩
  · intro ft q p hp
    obtain ⟨line, hline, heq⟩ := List.mem_filterMap.mp hp
    dsimp only at heq
    split_ifs at heq with h1 h2
    · obtain rfl := Option.some.inj heq
      exact ⟨h2, h1, rfl⟩
  · intro ft q
    exact List.sorted_insertionSort _ _
  · intro ft q
    exact List.perm_insertionSort _ _
  · intro ft q l hsub hpair
    exact List.sublist_insertionSort hpair hsub

/-- Witness for C5: the first scored line of the scenario has score 1,
is non-blank, and its score is its token-occurrence count; and the two
tied scenario lines survive the sort in encounter order. -/
theorem C5_keyword_scoring_witness :
    (0 < ((1, "apples are red") : Nat × String).1 ∧
      0 < (pyStrip ((1, "apples are red") : Nat × String).2).length ∧
      ((1, "apples are red") : Nat × String).1 =
        line_score (pyLower "apples yellow")
          ((1, "apples are red") : Nat × String).2) ∧
    List.Sublist [(1, "apples are red"), (1, "bananas are yellow")]
      ((scored_lines exFallback "apples yellow").insertionSort
        (fun a b => b.1 ≤ a.1)) :=
  ⟨C5_keyword_scoring.1 exFallback "apples yellow" (1, "apples are red")
      (by decide),
   C5_keyword_scoring.2.2.2.1 exFallback "apples yellow"
      [(1, "apples are red"), (1, "bananas are yellow")]
      (by decide) (by decide)⟩

/-! ### C6 -/

/-- Counterexample to C6 as stated: in the keyword fallback path,
`retrieve_context` does NOT use a `top_k` that defaults to 3 and is
configurable independently of `n_results` — it hard-passes
`top_k = n_results`. With `n_results = 0` on a non-empty collection the
fallback path is taken (semantic search returns zero documents), the
fallback text has matching lines (`keyword_search` with the alleged
default `top_k = 3` is non-empty), yet the call returns `("", "none")`
instead of those lines with method `"keyword"`. -/
theorem C6_counterexample :
    retrieve_context exEncode "apples yellow" c1doc 0 (some exFallback) =
      ("", "none") ∧
    keyword_search exFallback "apples yellow" 3 ≠ "" ∧
    retrieve_context exEncode "apples yellow" c1doc 0 (some exFallback) ≠
      (keyword_search exFallback "apples yellow" 3, "keyword") :=
  ⟨by decide, by decide, by decide⟩

/-- Claim C6, amended: in the keyword fallback path `retrieve_context`
calls `keyword_search` with `top_k = n_results` (not an independent
default of 3 — the default applies only to direct `keyword_search` calls),
so the number of matched lines is bounded by `n_results`; a non-empty
result is the newline-join of those lines with method `"keyword"`, else
the call returns `("", "none")`. -/
theorem C6_fallback_topk_is_n_results
    (encode : List String → Except Unit (List Vec))
    (q : String) (c : FAISSCollection) (n : Nat) (ft : String)
    (qr : QueryResult) (rest : List (List String))
    (hcnt : c.count ≠ 0)
    (hq : c.query encode [q] (min (n * 2) c.count) = .ok qr)
    (hdocs : qr.documents = [] :: rest) (hft : ft ≠ "") :
    retrieve_context encode q c n (some ft) =
      (if keyword_search ft q n ≠ "" then (keyword_search ft q n, "keyword")
       else ("", "none")) ∧
    (keyword_matched ft q n).length ≤ n := by
  constructor
  · simp only [retrieve_context, hq, hdocs]
    rw [if_neg hcnt, if_neg (by simp), if_pos (strTruthy_some hft)]
    simp
  · simp only [keyword_matched, List.length_map]
    exact List.length_take_le n _

/-- Witness for C6: the fallback branch reached with `n_results = 0` on
the one-document collection. -/
theorem C6_fallback_topk_is_n_results_witness :
    retrieve_context exEncode "apples yellow" c1doc 0 (some exFallback) =
      (if keyword_search exFallback "apples yellow" 0 ≠ "" then
        (keyword_search exFallback "apples yellow" 0, "keyword")
       else ("", "none")) ∧
    (keyword_matched exFallback "apples yellow" 0).length ≤ 0 :=
  C6_fallback_topk_is_n_results exEncode "apples yellow" c1doc 0 exFallback
    ⟨[[]], [[]], [[]]⟩ [] (by decide) (by decide) rfl (by decide)

/-! ### C7 -/

/-- Claim C7: `retrieve_context` is total — it always returns a
`(context, method)` pair — and an internal failure during retrieval
produces `("", "error")` instead of a propagated exception: both a raised
encode failure inside the collection query and the `IndexError` of the
`[0]` subscript when the query yields no document rows degrade to
`("", "error")`. -/
theorem C7_retrieval_never_raises :
    (∀ (encode : List String → Except Unit (List Vec)) (q : String)
      (c : FAISSCollection) (n : Nat) (ft : Option String),
      ∃ ctx m, retrieve_context encode q c n ft = (ctx, m)) ∧
    (∀ (encode : List String → Except Unit (List Vec)) (q : String)
      (c : FAISSCollection) (n : Nat) (ft : Option String),
      c.count ≠ 0 → encode [q] = .error () →
      retrieve_context encode q c n ft = ("", "error")) ∧
    (∀ (encode : List String → Except Unit (List Vec)) (q : String)
      (c : FAISSCollection) (n : Nat) (ft : Option String),
      c.count ≠ 0 → encode [q] = .ok [] →
      retrieve_context encode q c n ft = ("", "error")) := by
  refine ⟨fun encode q c n ft => ⟨_, _, rfl⟩, ?_, ?_⟩
  · intro encode q c n ft hcnt herr
    have hd : c.documents ≠ [] := by
      intro h
      exact hcnt (by simp [FAISSCollection.count, h])
    simp only [retrieve_context,
      query_encode_error c encode [q] _ (by simp) hd herr]
    rw [if_neg hcnt]
  · intro encode q c n ft hcnt hok
    have hd : c.documents ≠ [] := by
      intro h
      exact hcnt (by simp [FAISSCollection.count, h])
    simp only [retrieve_context,
      query_encode_empty c encode [q] _ (by simp) hd hok]
    rw [if_neg hcnt]

/-- Witness for C7: a raising embedding model and an empty-rows embedding
model both degrade to `("", "error")` on the one-document collection. -/
theorem C7_retrieval_never_raises_witness :
    retrieve_context (fun _ => .error ()) "q" c1doc 5 none = ("", "error") ∧
    retrieve_context (fun _ => .ok []) "q" c1doc 5 none = ("", "error") :=
  ⟨C7_retrieval_never_raises.2.1 (fun _ => .error ()) "q" c1doc 5 none
      (by decide) rfl,
   C7_retrieval_never_raises.2.2 (fun _ => .ok []) "q" c1doc 5 none
      (by decide) rfl⟩

/-! ### C8 -/

/-- Claim C8: the index search returns `min k size` (row, distance) pairs
in non-decreasing distance order — in particular all rows, ranked, when
the index holds fewer than `k` rows — and consequently every distances row
of a completed `query` is sorted non-decreasingly, so the documents
returned by `query` (and the semantic results of `retrieve_context`) are
in non-decreasing distance order. -/
theorem C8_query_distance_order :
    (∀ (rows : List Vec) (qv : Vec) (k : Nat),
      (indexSearch rows qv k).length = min k rows.length ∧
      List.Sorted (fun a b : Nat × Int => a.2 ≤ b.2) (indexSearch rows qv k) ∧
      (rows.length ≤ k → List.Perm ((indexSearch rows qv k).map Prod.fst)
        (List.range rows.length))) ∧
    (∀ (c : FAISSCollection) (encode : List String → Except Unit (List Vec))
      (query_texts : List String) (n : Nat) (qr : QueryResult)
      (drow : List Int),
      c.query encode query_texts n = .ok qr → drow ∈ qr.distances →
      List.Sorted (· ≤ ·) drow) := by
  refine ⟨fun rows qv k =>
    ⟨indexSearch_length rows qv k, indexSearch_sorted rows qv k,
     fun h => indexSearch_all_rows rows qv k h⟩, ?_⟩
  intro c encode query_texts n qr drow hq hdrow
  unfold FAISSCollection.query at hq
  split at hq
  · obtain rfl := Except.ok.inj hq
    simp only [List.mem_singleton] at hdrow
    subst hdrow
    exact List.sorted_nil
  · split at hq
    · exact absurd hq (by simp)
    · obtain rfl := Except.ok.inj hq
      simp only at hdrow
      obtain ⟨rs, hrs, rfl⟩ := List.mem_map.mp hdrow
      obtain ⟨qv, hqv, rfl⟩ := List.mem_map.mp hrs
      exact List.Pairwise.map (fun p : Nat × Int => p.2)
        (fun a b hab => hab) (indexSearch_sorted c.index qv _)

/-- Witness for C8: all rows ranked on a one-row index searched with
`k = 2`, and the distances row of a concrete completed query is sorted. -/
theorem C8_query_distance_order_witness :
    List.Perm ((indexSearch [List.replicate 384 (0 : Int)] [0] 2).map
      Prod.fst) (List.range 1) ∧
    List.Sorted (· ≤ ·) [(0 : Int)] :=
  ⟨(C8_query_distance_order.1 [List.replicate 384 (0 : Int)] [0] 2).2.2
      (by decide),
   C8_query_distance_order.2 c1doc exEncode ["q"] 1 qrWit [0]
      (by decide) (by decide)⟩

/-! ### C9 -/

/-- Counterexample to C9 as stated: a completed add issued by
`chunk_and_store` with a falsy source (`None`) appends the metadata dict
`{}`, which has no `"source"` key — so not every stored entry's metadata
contains `"source"`. -/
theorem C9_counterexample :
    (chunk_and_store exSplit exUuid exEncode true true "hello" c0 none).map
      (fun p => p.2.metadatas) = .ok [[]] ∧
    metaGet [] "source" = none :=
  ⟨by decide, by decide⟩

/-- Claim C9, amended: every metadata dict appended by a completed
`chunk_and_store` with a truthy source `s` contains `"source"` mapped to
`s`; adds with a falsy source (and direct `add` calls with `None`/empty
metadata) append `{}` without the key. -/
theorem C9_source_metadata (splitter : String → List String)
    (uuid : Nat → String) (encode : List String → Except Unit (List Vec))
    (idxOk metaOk : Bool) (text : String) (c c1 : FAISSCollection)
    (s : String) (r : Nat × Bool) (hs : s ≠ "")
    (h1 : chunk_and_store splitter uuid encode idxOk metaOk text c (some s) =
      .ok (r, c1)) :
    ∀ m ∈ c1.metadatas.drop c.metadatas.length,
      metaGet m "source" = some s := by
  have ht := strTruthy_some hs
  simp only [chunk_and_store, ht, Option.getD_some, if_true] at h1
  by_cases hex : 0 < (c.get (some [("source", s)])).ids.length
  · rw [if_pos hex] at h1
    obtain rfl : c = c1 := congrArg Prod.snd (Except.ok.inj h1)
    simp
  · rw [if_neg hex] at h1
    by_cases hchunks : splitter text = []
    · rw [hchunks] at h1
      rw [List.length_nil, List.range_zero, List.map_nil, List.map_nil] at h1
      rw [add_nil] at h1
      obtain rfl : c = c1 := congrArg Prod.snd (Except.ok.inj h1)
      simp
    · cases hadd : c.add encode idxOk metaOk
          ((List.range (splitter text).length).map uuid) (splitter text)
          (some ((splitter text).map (fun _ => [("source", s)]))) with
      | error e =>
        rw [hadd] at h1
        exact absurd h1 (by simp)
      | ok c' =>
        rw [hadd] at h1
        obtain rfl : c' = c1 := congrArg Prod.snd (Except.ok.inj h1)
        have hmeta := add_metadatas_append c c' encode idxOk metaOk _ _ _
          hchunks (by simpa using hchunks) hadd
        rw [hmeta, List.drop_left]
        intro m hm
        obtain ⟨ch, hch, rfl⟩ := List.mem_map.mp hm
        simp [metaGet]

/-- Witness for C9: the single metadata dict appended when `"hello"` is
stored under source `"s1"` carries `"source" = "s1"`. -/
theorem C9_source_metadata_witness :
    metaGet [("source", "s1")] "source" = some "s1" :=
  C9_source_metadata exSplit exUuid exEncode true true "hello" c0 cS1 "s1"
    (1, false) (by decide) (by decide) [("source", "s1")] (by decide)

end RAGChatbot
